import Mathlib

/-!
Shallow embedding of the `vhrdcan` crate (src/id.rs, src/frame.rs, src/heap.rs)
and verification of the specification claims against it.

Machine integers are modelled as `Nat`/`Int` with explicit wrapping where the
source wraps (`u16`, `i16` sequence counters), fallible operations return
`Option`/`Except`, and Rust panics (`unreachable!`, out-of-bounds indexing,
`usize` underflow) are modelled as `Option.none`.
-/

set_option maxHeartbeats 1000000

/-! ### id.rs -/

/-- Models `StandardId(u16)` from id.rs: an 11-bit CAN identifier payload. -/
structure StandardId where
  val : Nat
deriving DecidableEq

/-- Models `StandardId::new`: rejects the input when any of bits 11..15 is set
(`standard_id & (0b0001_1111 << 11) != 0`). -/
def StandardId.new (standard_id : Nat) : Option StandardId :=
  if standard_id &&& (0b11111 <<< 11) ≠ 0 then none else some ⟨standard_id⟩

/-- Models `ExtendedId(u32)` from id.rs: a 29-bit CAN identifier payload. -/
structure ExtendedId where
  val : Nat
deriving DecidableEq

/-- Models `ExtendedId::new`: rejects the input when any of bits 29..31 is set
(`extended_id & (0b111 << 29) != 0`). -/
def ExtendedId.new (extended_id : Nat) : Option ExtendedId :=
  if extended_id &&& (0b111 <<< 29) ≠ 0 then none else some ⟨extended_id⟩

/-- Models `enum FrameId { Standard(StandardId), Extended(ExtendedId) }`. -/
inductive FrameId where
  | Standard (sid : StandardId)
  | Extended (eid : ExtendedId)
deriving DecidableEq

/-- Models `FrameId::new_standard`. -/
def FrameId.new_standard (standard_id : Nat) : Option FrameId :=
  match StandardId.new standard_id with
  | some id => some (FrameId.Standard id)
  | none => none

/-- Models `FrameId::new_extended`. -/
def FrameId.new_extended (extended_id : Nat) : Option FrameId :=
  match ExtendedId.new extended_id with
  | some id => some (FrameId.Extended id)
  | none => none

/-- Models `impl Ord for FrameId` (id.rs lines 74-99): Standard-vs-Standard and
Extended-vs-Extended compare by numeric value; a Standard identifier is always
`Less` than an Extended one ("Standard frame wins because of IDE dominant"). -/
def FrameId.cmp : FrameId → FrameId → Ordering
  | FrameId.Standard l, FrameId.Standard r => compare l.val r.val
  | FrameId.Standard _, FrameId.Extended _ => Ordering.lt
  | FrameId.Extended _, FrameId.Standard _ => Ordering.gt
  | FrameId.Extended l, FrameId.Extended r => compare l.val r.val

/-! ### frame.rs -/

/-- Models `Frame<MTU> { id: FrameId, data: [u8; MTU], len: u16 }`.  The byte
buffer is a `List Nat` (of length `MTU` for frames built by the constructors)
and the `u16` length field is a `Nat` (kept below `2^16` by construction). -/
structure Frame where
  id : FrameId
  data : List Nat
  len : Nat
deriving DecidableEq

/-- Models `Frame::new` (frame.rs lines 35-50): fails when `data.len() > MTU`,
otherwise copies the bytes into a zeroed `MTU`-sized buffer and stores
`data.len() as u16` (hence the `% 65536` truncation of the length field). -/
def Frame.new (MTU : Nat) (id : FrameId) (bytes : List Nat) : Option Frame :=
  if bytes.length > MTU then none
  else some { id := id,
              data := bytes ++ List.replicate (MTU - bytes.length) 0,
              len := bytes.length % 65536 }

/-- Models `Frame::new_move` (frame.rs lines 52-57): the guard compares
`data.len()` — which for a `[u8; MTU]` argument is always `MTU` — against
`MTU`, and stores `used` as the length field without inspecting it. -/
def Frame.new_move (MTU : Nat) (id : FrameId) (data : List Nat) (used : Nat) :
    Option Frame :=
  if data.length > MTU then none
  else some { id := id, data := data, len := used }

/-- Models `Frame::data` (frame.rs lines 67-69): `&self.data[..self.len as usize]`.
Rust panics when the slice upper bound `len` exceeds the buffer length, which is
modelled as `none`. -/
def Frame.dataAcc (f : Frame) : Option (List Nat) :=
  if f.len ≤ f.data.length then some (f.data.take f.len) else none

/-- Models `impl Ord for Frame` (frame.rs): comparison delegates to the id. -/
def Frame.cmp (f g : Frame) : Ordering :=
  FrameId.cmp f.id g.id

/-! ### Bit-level helper lemmas for the identifier range checks -/

theorem and_eq_zero_iff_bits (x y : Nat) :
    x &&& y = 0 ↔ ∀ i, x.testBit i = false ∨ y.testBit i = false := by
  constructor
  · intro h i
    have hb := congrArg (fun z => Nat.testBit z i) h
    simp only [Nat.testBit_and, Nat.zero_testBit, Bool.and_eq_false_iff] at hb
    exact hb
  · intro h
    apply Nat.eq_of_testBit_eq
    intro i
    rcases h i with h1 | h1 <;> simp [Nat.testBit_and, h1]

theorem testBit_mask_window (w k i : Nat) :
    ((2 ^ w - 1) <<< k).testBit i = decide (k ≤ i ∧ i < k + w) := by
  simp only [Nat.testBit_shiftLeft, Nat.testBit_two_pow_sub_one, ge_iff_le]
  rw [← Bool.decide_and, decide_eq_decide]
  omega

theorem mask_and_eq_zero_iff (v w k B : Nat) (hB : B = k + w) (hv : v < 2 ^ B) :
    (v &&& ((2 ^ w - 1) <<< k) = 0) ↔ ∀ i, k ≤ i → v.testBit i = false := by
  rw [and_eq_zero_iff_bits]
  constructor
  · intro h i hi
    by_cases hib : i < B
    · rcases h i with h1 | h1
      · exact h1
      · exfalso
        rw [testBit_mask_window] at h1
        simp only [decide_eq_false_iff_not, not_and, not_lt] at h1
        omega
    · exact Nat.testBit_lt_two_pow
        (lt_of_lt_of_le hv (Nat.pow_le_pow_right (by norm_num) (by omega)))
  · intro h i
    by_cases hk : k ≤ i
    · exact Or.inl (h i hk)
    · right
      rw [testBit_mask_window]
      simp only [decide_eq_false_iff_not, not_and, not_lt]
      omega

/-! ### Claim theorems about id.rs and frame.rs -/

/-- Claim C6: `FrameId.cmp` is a total order: Standard-vs-Standard and
Extended-vs-Extended compare by numeric value, and every Standard identifier
compares strictly less than every Extended identifier regardless of value. -/
theorem frameId_cmp_total_order :
    (∀ a b : StandardId, FrameId.cmp (FrameId.Standard a) (FrameId.Standard b)
        = compare a.val b.val) ∧
    (∀ a b : ExtendedId, FrameId.cmp (FrameId.Extended a) (FrameId.Extended b)
        = compare a.val b.val) ∧
    (∀ (a : StandardId) (b : ExtendedId),
        FrameId.cmp (FrameId.Standard a) (FrameId.Extended b) = Ordering.lt) ∧
    (∀ (a : ExtendedId) (b : StandardId),
        FrameId.cmp (FrameId.Extended a) (FrameId.Standard b) = Ordering.gt) ∧
    (∀ x y : FrameId, FrameId.cmp x y = Ordering.eq ↔ x = y) ∧
    (∀ x y : FrameId, FrameId.cmp x y = Ordering.lt ↔ FrameId.cmp y x = Ordering.gt) ∧
    (∀ x y z : FrameId, FrameId.cmp x y = Ordering.lt → FrameId.cmp y z = Ordering.lt →
        FrameId.cmp x z = Ordering.lt) := by
  refine ⟨fun a b => rfl, fun a b => rfl, fun a b => rfl, fun a b => rfl, ?_, ?_, ?_⟩
  · intro x y
    cases x with
    | Standard a =>
      cases y with
      | Standard b => cases a; cases b; simp [FrameId.cmp, Nat.compare_eq_eq]
      | Extended b => simp [FrameId.cmp]
    | Extended a =>
      cases y with
      | Standard b => simp [FrameId.cmp]
      | Extended b => cases a; cases b; simp [FrameId.cmp, Nat.compare_eq_eq]
  · intro x y
    cases x <;> cases y <;>
      simp [FrameId.cmp, Nat.compare_eq_lt, Nat.compare_eq_gt]
  · intro x y z hxy hyz
    cases x <;> cases y <;> cases z <;>
      simp_all [FrameId.cmp, Nat.compare_eq_lt] <;> omega

/-- Witness for C6: the transitivity clause applied at concrete identifiers
`standard 0 < standard 7 < extended 0`. -/
theorem frameId_cmp_total_order_witness :
    FrameId.cmp (FrameId.Standard ⟨0⟩) (FrameId.Extended ⟨0⟩) = Ordering.lt :=
  frameId_cmp_total_order.2.2.2.2.2.2 (FrameId.Standard ⟨0⟩) (FrameId.Standard ⟨7⟩)
    (FrameId.Extended ⟨0⟩) (by decide) (by decide)

/-- Claim C8: for every `u16` input, `new_standard` succeeds exactly when no bit
above bit 10 is set; for every `u32` input, `new_extended` succeeds exactly when
no bit above bit 28 is set. -/
theorem id_new_rejects_high_bits :
    (∀ v : Nat, v < 65536 →
      ((FrameId.new_standard v).isSome = true ↔ ∀ i, 11 ≤ i → v.testBit i = false)) ∧
    (∀ v : Nat, v < 4294967296 →
      ((FrameId.new_extended v).isSome = true ↔ ∀ i, 29 ≤ i → v.testBit i = false)) := by
  constructor
  · intro v hv
    have hmask : (0b11111 : Nat) = 2 ^ 5 - 1 := by norm_num
    have h := mask_and_eq_zero_iff v 5 11 16 (by norm_num) (by exact_mod_cast hv)
    rw [FrameId.new_standard, StandardId.new, hmask]
    by_cases hz : v &&& ((2 ^ 5 - 1) <<< 11) = 0
    · simp only [hz, ne_eq, not_true_eq_false, if_false]
      simpa using h.mp hz
    · simp only [hz, ne_eq, not_false_eq_true, if_true]
      simp only [Option.isSome_none, Bool.false_eq_true, false_iff]
      intro hc
      exact hz (h.mpr hc)
  · intro v hv
    have hmask : (0b111 : Nat) = 2 ^ 3 - 1 := by norm_num
    have h := mask_and_eq_zero_iff v 3 29 32 (by norm_num) (by exact_mod_cast hv)
    rw [FrameId.new_extended, ExtendedId.new, hmask]
    by_cases hz : v &&& ((2 ^ 3 - 1) <<< 29) = 0
    · simp only [hz, ne_eq, not_true_eq_false, if_false]
      simpa using h.mp hz
    · simp only [hz, ne_eq, not_false_eq_true, if_true]
      simp only [Option.isSome_none, Bool.false_eq_true, false_iff]
      intro hc
      exact hz (h.mpr hc)

/-- Witness for C8: `new_standard 2047` (all 11 low bits set) is accepted and
`new_standard 2048` (bit 11 set) is rejected. -/
theorem id_new_rejects_high_bits_witness :
    ((FrameId.new_standard 2047).isSome = true ↔ ∀ i, 11 ≤ i → Nat.testBit 2047 i = false) ∧
    ((FrameId.new_extended 536870912).isSome = true ↔
      ∀ i, 29 ≤ i → Nat.testBit 536870912 i = false) :=
  ⟨id_new_rejects_high_bits.1 2047 (by norm_num),
   id_new_rejects_high_bits.2 536870912 (by norm_num)⟩

/-- Claim C9 counterexample: with capacity `C = 65536` and an input of 65536
bytes (length ≤ C), `Frame.new` succeeds but the length field is truncated to
`65536 % 2^16 = 0` by the `as u16` cast, so `data()` returns the empty slice,
not the input bytes. -/
theorem frame_new_roundtrip_counterexample :
    ∃ f, Frame.new 65536 (FrameId.Standard ⟨1⟩) (List.replicate 65536 1) = some f ∧
      Frame.dataAcc f ≠ some (List.replicate 65536 1) := by
  refine ⟨{ id := FrameId.Standard ⟨1⟩,
            data := List.replicate 65536 1 ++ List.replicate (65536 - 65536) 0,
            len := 65536 % 65536 }, ?_, ?_⟩
  · rw [Frame.new,
      if_neg (by simp only [List.length_replicate, gt_iff_lt, lt_self_iff_false,
        not_false_eq_true])]
    simp only [List.length_replicate]
  · rw [Frame.dataAcc,
      if_pos (by simp only [Nat.mod_self, List.length_append, List.length_replicate]
                 omega)]
    simp only [Nat.mod_self, List.take_zero]
    intro h
    injection h with h'
    have hlen := congrArg List.length h'
    simp only [List.length_nil, List.length_replicate] at hlen
    exact absurd hlen (by norm_num)

/-- Claim C9 (amended): for every byte sequence whose length is at most the
capacity `C` and below `2^16` (the width of the stored `u16` length field),
`Frame.new` succeeds and `data()` returns exactly the input bytes; for every
byte sequence longer than `C`, `Frame.new` returns `none`. -/
theorem frame_new_roundtrip_amended :
    (∀ (MTU : Nat) (id : FrameId) (bytes : List Nat),
        bytes.length ≤ MTU → bytes.length < 65536 →
        ∃ f, Frame.new MTU id bytes = some f ∧ Frame.dataAcc f = some bytes) ∧
    (∀ (MTU : Nat) (id : FrameId) (bytes : List Nat),
        MTU < bytes.length → Frame.new MTU id bytes = none) := by
  constructor
  · intro MTU id bytes hle hlt
    refine ⟨{ id := id, data := bytes ++ List.replicate (MTU - bytes.length) 0,
              len := bytes.length % 65536 }, ?_, ?_⟩
    · rw [Frame.new, if_neg (by omega)]
    · rw [Frame.dataAcc]
      simp only [Nat.mod_eq_of_lt hlt]
      rw [if_pos (by simp)]
      rw [List.take_left]
  · intro MTU id bytes h
    rw [Frame.new, if_pos (by omega)]

/-- Witness for the amended C9 at a concrete frame of 3 bytes with capacity 8. -/
theorem frame_new_roundtrip_amended_witness :
    ∃ f, Frame.new 8 (FrameId.Standard ⟨1⟩) [1, 2, 3] = some f ∧
      Frame.dataAcc f = some [1, 2, 3] :=
  frame_new_roundtrip_amended.1 8 (FrameId.Standard ⟨1⟩) [1, 2, 3]
    (by norm_num) (by norm_num)

/-- Claim C10: the safe constructor `Frame::new_move` succeeds for every `used`
value because its guard compares the fixed buffer's length (always `MTU`)
against `MTU`; in particular `used = 9` with capacity 8 yields a frame whose
length field exceeds the buffer length, so `data()` takes an out-of-bounds
slice (modelled as `Frame.dataAcc = none`). -/
theorem frame_new_move_unchecked_used :
    (∀ (MTU : Nat) (id : FrameId) (d : List Nat) (used : Nat), d.length = MTU →
        (Frame.new_move MTU id d used).isSome = true) ∧
    (∃ f, Frame.new_move 8 (FrameId.Standard ⟨1⟩) (List.replicate 8 0) 9 = some f ∧
        f.data.length < f.len ∧ Frame.dataAcc f = none) := by
  constructor
  · intro MTU id d used h
    rw [Frame.new_move, if_neg (by omega)]
    rfl
  · exact ⟨{ id := FrameId.Standard ⟨1⟩, data := List.replicate 8 0, len := 9 },
      by decide, by decide, by decide⟩

/-- Witness for C10: `new_move` with `used = 500` on an 8-byte buffer succeeds. -/
theorem frame_new_move_unchecked_used_witness :
    (Frame.new_move 8 (FrameId.Standard ⟨1⟩) (List.replicate 8 0) 500).isSome = true :=
  frame_new_move_unchecked_used.1 8 (FrameId.Standard ⟨1⟩) (List.replicate 8 0) 500
    (by decide)

/-! ### heap.rs: wrapping integer helpers

`seq` is an `i16` advanced with `wrapping_add` and compared through
`wrapping_sub(..).cmp(&0)`; `group_seq` is a `u16` advanced with `wrapping_add`. -/

/-- Reduce an integer to the `i16` two's-complement range `[-32768, 32767]`. -/
def wrapI16 (x : Int) : Int := (x + 32768) % 65536 - 32768

/-- Models `i16::wrapping_sub`. -/
def i16_wrapping_sub (a b : Int) : Int := wrapI16 (a - b)

/-- Models `i16::wrapping_add`. -/
def i16_wrapping_add (a b : Int) : Int := wrapI16 (a + b)

/-- Models `u16::wrapping_add`. -/
def u16_wrapping_add (a b : Nat) : Nat := (a + b) % 65536

/-! ### heap.rs: data model -/

/-- Models `struct NoGrouping {}` whose `PartialEq` always returns `false`. -/
structure NoGrouping where

instance : BEq NoGrouping := ⟨fun _ _ => false⟩

/-- Models `enum HeapElement<M, G, MTU> { Hole, Filled(Frame, i16, M, G) }`. -/
inductive HeapElement (M G : Type) where
  | Hole
  | Filled (frame : Frame) (seq : Int) (marker : M) (group : G)
deriving DecidableEq

/-- Models the derived-`PartialEq` test `*elem == HeapElement::Hole`, which
never consults the group's equality. -/
def HeapElement.isHole {M G : Type} : HeapElement M G → Bool
  | HeapElement.Hole => true
  | HeapElement.Filled _ _ _ _ => false

/-- Models `impl Ord for HeapElement` (heap.rs lines 29-56): a `Hole` compares
greater than any `Filled` element; two `Filled` elements compare by frame id
and break ties with `self_seq.wrapping_sub(other_seq).cmp(&0)`. -/
def HeapElement.cmp {M G : Type} : HeapElement M G → HeapElement M G → Ordering
  | HeapElement.Hole, HeapElement.Hole => Ordering.eq
  | HeapElement.Hole, HeapElement.Filled _ _ _ _ => Ordering.gt
  | HeapElement.Filled _ _ _ _, HeapElement.Hole => Ordering.lt
  | HeapElement.Filled f a _ _, HeapElement.Filled g b _ _ =>
    match Frame.cmp f g with
    | Ordering.lt => Ordering.lt
    | Ordering.eq => compare (i16_wrapping_sub a b) 0
    | Ordering.gt => Ordering.gt

/-- The non-strict order induced by `HeapElement.cmp`, as used by sorting. -/
def HeapElement.leP {M G : Type} (a b : HeapElement M G) : Prop :=
  HeapElement.cmp a b ≠ Ordering.gt

instance {M G : Type} : DecidableRel (HeapElement.leP (M := M) (G := G)) :=
  fun _ _ => instDecidableNot

/-- Models `self.data.sort_unstable()`.  `sort_unstable` sorts the array by the
element `Ord`; the embedding fixes insertion sort as the deterministic
refinement of it. -/
def sortData {M G : Type} (d : List (HeapElement M G)) : List (HeapElement M G) :=
  List.insertionSort HeapElement.leP d

/-- Models `enum SortOn { Push, Pop }`. -/
inductive SortOn where
  | Push
  | Pop
deriving DecidableEq

/-- Models `struct Heap<M, G, MTU, N> { data: [HeapElement; N], len, hint_idx,
sort_on, seq }`.  The array is a list (length `N` for states built by the
API); `len` and `hint_idx` are `usize`, `seq` is the `i16` counter. -/
structure Heap (M G : Type) (N : Nat) where
  data : List (HeapElement M G)
  len : Nat
  hint_idx : Nat
  sort_on : SortOn
  seq : Int
deriving DecidableEq

/-- Models `Heap::new`. -/
def Heap.new (M G : Type) (N : Nat) (sort_on : SortOn) : Heap M G N :=
  { data := List.replicate N HeapElement.Hole, len := 0, hint_idx := 0,
    sort_on := sort_on, seq := 0 }

/-- Number of `Filled` slots of an array. -/
def countFilled {M G : Type} (l : List (HeapElement M G)) : Nat :=
  (l.filter (fun e => !e.isHole)).length

/-- The frames stored in an array, in slot order. -/
def framesOf {M G : Type} (l : List (HeapElement M G)) : List Frame :=
  l.filterMap (fun e => match e with
    | HeapElement.Filled f _ _ _ => some f
    | HeapElement.Hole => none)

/-! ### heap.rs: Heap::push -/

/-- Models the first-fit insertion loop of `Heap::push` (heap.rs lines 125-130):
overwrite the first `Hole` slot; if no slot is a `Hole` the loop falls through
and the array is unchanged. -/
def fillFirstHole {M G : Type} (l : List (HeapElement M G)) (x : HeapElement M G) :
    List (HeapElement M G) :=
  match l with
  | [] => []
  | e :: rest => if e.isHole then x :: rest else e :: fillFirstHole rest x

/-- Models the cascade-eviction scan of `Heap::push` (heap.rs lines 107-117):
clear every `Filled` slot whose group equals the evicted occupant's group
(`old_group == *group`) and count the cleared slots. -/
def clearGroupScan {M G : Type} [BEq G] (old : G) :
    List (HeapElement M G) → List (HeapElement M G) × Nat
  | [] => ([], 0)
  | HeapElement.Hole :: rest =>
    let r := clearGroupScan old rest
    (HeapElement.Hole :: r.1, r.2)
  | HeapElement.Filled f s m g :: rest =>
    let r := clearGroupScan old rest
    if old == g then (HeapElement.Hole :: r.1, r.2 + 1)
    else (HeapElement.Filled f s m g :: r.1, r.2)

/-- Models `Heap::push` (heap.rs lines 89-140).  Returns `none` on a Rust
panic: the `N - 1` underflow for `N = 0`, the out-of-bounds index when the
array is shorter than `N`, and the `unreachable!()` when the sorted tail slot
is a `Hole`.  On `Err`, the mutations already performed (the full-branch sort
and `hint_idx = 0`) are kept, exactly as in the `&mut self` source. -/
def Heap.push {M G : Type} [BEq G] {N : Nat} (h : Heap M G N) (frame : Frame)
    (marker : M) (group : G) : Option (Heap M G N × Except Frame Nat) :=
  if h.len = N then
    match N with
    | 0 => none
    | Nat.succ n =>
      let d := sortData h.data
      match d[n]? with
      | none => none
      | some HeapElement.Hole => none
      | some (HeapElement.Filled stored _ _ old_group) =>
        if Frame.cmp frame stored = Ordering.lt then
          let d1 := d.set n (HeapElement.Filled frame h.seq marker group)
          let r := clearGroupScan old_group d1
          let d3 := if h.sort_on = SortOn.Push then sortData r.1 else r.1
          some ({ data := d3, len := h.len, hint_idx := 0, sort_on := h.sort_on,
                  seq := i16_wrapping_add h.seq 1 }, Except.ok (1 + r.2))
        else
          some ({ h with data := d, hint_idx := 0 }, Except.error frame)
  else
    let d := fillFirstHole h.data (HeapElement.Filled frame h.seq marker group)
    let d2 := if h.sort_on = SortOn.Push then sortData d else d
    let hint2 := if h.sort_on = SortOn.Push then 0 else h.hint_idx
    some ({ data := d2, len := h.len + 1, hint_idx := hint2, sort_on := h.sort_on,
            seq := i16_wrapping_add h.seq 1 }, Except.ok 0)

/-! ### heap.rs: Heap::pop -/

/-- Models the fallback scan of `Heap::pop` (heap.rs lines 161-172): walk the
whole array from the start, incrementing `hint_idx` per visited slot, clear
and return the first `Filled` slot.  Returns the new array, the popped
element (if any) and the number of slots visited. -/
def popScan {M G : Type} :
    List (HeapElement M G) → List (HeapElement M G) × Option (Frame × M) × Nat
  | [] => ([], none, 0)
  | HeapElement.Hole :: rest =>
    let r := popScan rest
    (HeapElement.Hole :: r.1, r.2.1, r.2.2 + 1)
  | HeapElement.Filled f _ m _ :: rest => (HeapElement.Hole :: rest, some (f, m), 1)

/-- Models `Heap::pop` (heap.rs lines 142-176).  `none` models the Rust index
panic when the array is shorter than the (wrapped) `hint_idx` position. -/
def Heap.pop {M G : Type} {N : Nat} (h : Heap M G N) :
    Option (Heap M G N × Option (Frame × M)) :=
  if h.len = 0 then
    some (h, none)
  else
    let d := if h.sort_on = SortOn.Pop then sortData h.data else h.data
    let hint0 := if h.sort_on = SortOn.Pop then 0 else h.hint_idx
    let hint1 := if N ≤ hint0 then 0 else hint0
    match d[hint1]? with
    | none => none
    | some (HeapElement.Filled frame _ marker _) =>
      some ({ data := d.set hint1 HeapElement.Hole, len := h.len - 1,
              hint_idx := hint1 + 1, sort_on := h.sort_on, seq := h.seq },
            some (frame, marker))
    | some HeapElement.Hole =>
      let r := popScan d
      match r.2.1 with
      | some fm =>
        some ({ data := r.1, len := h.len - 1, hint_idx := hint1 + r.2.2,
                sort_on := h.sort_on, seq := h.seq }, some fm)
      | none =>
        some ({ data := r.1, len := h.len, hint_idx := hint1 + r.2.2,
                sort_on := h.sort_on, seq := h.seq }, none)

/-! ### heap.rs: PlainHeap -/

/-- Models `PlainHeap<M, MTU, N>`: a `Heap` over the `NoGrouping` tag. -/
structure PlainHeap (M : Type) (N : Nat) where
  heap : Heap M NoGrouping N

/-- Models `PlainHeap::new`. -/
def PlainHeap.new (M : Type) (N : Nat) (sort_on : SortOn) : PlainHeap M N :=
  ⟨Heap.new M NoGrouping N sort_on⟩

/-- Models `PlainHeap::push`: delegates with a fresh `NoGrouping {}` tag. -/
def PlainHeap.push {M : Type} {N : Nat} (h : PlainHeap M N) (frame : Frame)
    (marker : M) : Option (PlainHeap M N × Except Frame Nat) :=
  match Heap.push h.heap frame marker ⟨⟩ with
  | none => none
  | some (h', r) => some (⟨h'⟩, r)

/-- Models `PlainHeap::pop`. -/
def PlainHeap.pop {M : Type} {N : Nat} (h : PlainHeap M N) :
    Option (PlainHeap M N × Option (Frame × M)) :=
  match Heap.pop h.heap with
  | none => none
  | some (h', r) => some (⟨h'⟩, r)

/-! ### heap.rs: GroupingHeap -/

/-- Models `GroupingHeap<M, MTU, N>`: a `Heap` whose group tags are `u16`
(`Nat` here), plus the `group_seq` allocator. -/
structure GroupingHeap (M : Type) (N : Nat) where
  heap : Heap M Nat N
  group_seq : Nat
deriving DecidableEq

/-- Models `GroupingHeap::new`. -/
def GroupingHeap.new (M : Type) (N : Nat) (sort_on : SortOn) : GroupingHeap M N :=
  { heap := Heap.new M Nat N sort_on, group_seq := 0 }

/-- Models `GroupingHeap::push`: advance `group_seq` (also when the inner push
rejects) and delegate with the fresh tag. -/
def GroupingHeap.push {M : Type} {N : Nat} (gh : GroupingHeap M N) (frame : Frame)
    (marker : M) : Option (GroupingHeap M N × Except Frame Nat) :=
  let gseq := u16_wrapping_add gh.group_seq 1
  match Heap.push gh.heap frame marker gseq with
  | none => none
  | some (h', r) => some ({ heap := h', group_seq := gseq }, r)

/-- Checked `usize` subtraction: `none` models the Rust underflow panic. -/
def csub (a b : Nat) : Option Nat :=
  if b ≤ a then some (a - b) else none

/-- Checked array store: `none` models the Rust out-of-bounds panic. -/
def setChecked {α : Type} (l : List α) (i : Nat) (a : α) : Option (List α) :=
  if i < l.length then some (l.set i a) else none

/-- Models the inner `for i in i..N` loop of `push_group` (heap.rs lines
274-277): set `c` consecutive slots starting at index `i` to `Hole`. -/
def setHolesRange {M G : Type} :
    List (HeapElement M G) → Nat → Nat → Option (List (HeapElement M G))
  | l, _, 0 => some l
  | l, i, Nat.succ c =>
    match setChecked l i HeapElement.Hole with
    | none => none
    | some l' => setHolesRange l' (i + 1) c

/-- Models the eviction `loop` of `GroupingHeap::push_group` (heap.rs lines
256-278), faithfully including its quirks: each outer iteration clears the
slot at `i` (which may already be a `Hole` re-cleared after the inner
`for i in i..N` pass) and decrements `len` once per cleared slot — also for
slots the inner pass already cleared.  Arguments: the group tag being
cascaded, the capacity `N`, the current index `i`, the array, `len`, and the
running `removed_items` counter.  `none` models the panics (`unreachable!()`
on a `Hole` neighbour, `usize` underflow of `len`, index out of bounds). -/
def evictLoop {M : Type} (grp : Nat) (NN : Nat) :
    Nat → List (HeapElement M Nat) → Nat → Nat →
    Option (List (HeapElement M Nat) × Nat × Nat)
  | i, data, len, removed =>
    match setChecked data i HeapElement.Hole with
    | none => none
    | some d1 =>
      match csub len 1 with
      | none => none
      | some len1 =>
        match i with
        | 0 => some (d1, len1, removed + 1)
        | Nat.succ i' =>
          match d1[i']? with
          | none => none
          | some HeapElement.Hole => none
          | some (HeapElement.Filled _ _ _ og) =>
            if og ≠ grp then some (d1, len1, removed + 1)
            else
              match setHolesRange d1 i' (NN - i') with
              | none => none
              | some d2 =>
                match csub len1 (NN - i') with
                | none => none
                | some len2 => evictLoop grp NN i' d2 len2 (removed + 1)

/-- Models the insertion loop of `push_group` (heap.rs lines 294-299): write
each remaining entry at index `i`, advance `seq`, increment `len`, then
decrement `i` (checked — the decrement also runs after the last write). -/
def insertLoop {M : Type} (gseq : Nat) :
    List (Frame × M) → List (HeapElement M Nat) → Nat → Int → Nat →
    Option (List (HeapElement M Nat) × Int × Nat)
  | [], d, _, s, len => some (d, s, len)
  | fm :: rest, d, i, s, len =>
    match setChecked d i (HeapElement.Filled fm.1 s fm.2 gseq) with
    | none => none
    | some d1 =>
      match csub i 1 with
      | none => none
      | some i1 => insertLoop gseq rest d1 i1 (i16_wrapping_add s 1) (len + 1)

/-- The capacity-check / eviction phase of `push_group` (heap.rs lines
243-288): when the free capacity is below the remaining-entry count, sort,
inspect the slot at `N - frames.len()` and either run the eviction loop
(`Except.ok` with the array, cursor, `len` and `removed_items` to continue
with) or reject (`Except.error`). -/
def pushGroupPlan {M : Type} {N : Nat} (gh : GroupingHeap M N) (frame0 : Frame × M)
    (rest : List (Frame × M)) :
    Option (Except Unit (List (HeapElement M Nat) × Nat × Nat × Nat)) :=
  match csub N gh.heap.len with
  | none => none
  | some free =>
    if free < rest.length then
      match csub N rest.length with
      | none => none
      | some ngs =>
        let ds := sortData gh.heap.data
        match ds[ngs]? with
        | none => none
        | some HeapElement.Hole => none
        | some (HeapElement.Filled lower _ _ grp) =>
          if Frame.cmp frame0.1 lower = Ordering.lt then
            match evictLoop grp N ngs ds gh.heap.len 0 with
            | none => none
            | some (d1, len1, rem) => some (Except.ok (d1, 0, len1, rem))
          else some (Except.error ())
    else some (Except.ok (gh.heap.data, gh.heap.hint_idx, gh.heap.len, 0))

/-- The insertion phase of `push_group` (heap.rs lines 289-303): write the head
entry at `N - 1`, run the insertion loop over the remaining entries, then sort
if the mode is sort-on-push. -/
def pushGroupCommit {M : Type} {N : Nat} (gh : GroupingHeap M N) (frame0 : Frame × M)
    (rest : List (Frame × M)) (d : List (HeapElement M Nat)) (hint len : Nat) :
    Option (Heap M Nat N) :=
  let h := gh.heap
  let gseq := u16_wrapping_add gh.group_seq 1
  match csub N 1 with
  | none => none
  | some i0 =>
    match setChecked d i0 (HeapElement.Filled frame0.1 h.seq frame0.2 gseq) with
    | none => none
    | some d1 =>
      match insertLoop gseq rest d1 i0 (i16_wrapping_add h.seq 1) (len + 1) with
      | none => none
      | some (d2, seq2, len2) =>
        let d3 := if h.sort_on = SortOn.Push then sortData d2 else d2
        let hint3 := if h.sort_on = SortOn.Push then 0 else hint
        some { data := d3, len := len2, hint_idx := hint3,
               sort_on := h.sort_on, seq := seq2 }

/-- Models `GroupingHeap::push_group` (heap.rs lines 234-306).  The iterator
argument is a list; `frames.next()` consumes its head, so all later
`frames.len()` occurrences see the remaining-entry count.  The source's
behaviour is kept by this embedding: the first entry is written at `N - 1` and
then immediately overwritten by the next entry (the index is decremented only
after each loop-body write), while `len` is still incremented once per entry;
on the rejection path the array stays sorted and `hint_idx` stays reset. -/
def GroupingHeap.push_group {M : Type} {N : Nat} (gh : GroupingHeap M N)
    (frames : List (Frame × M)) : Option (GroupingHeap M N × Except Unit Nat) :=
  match frames with
  | [] => some (gh, Except.ok 0)
  | frame0 :: rest =>
    match pushGroupPlan gh frame0 rest with
    | none => none
    | some (Except.error _) =>
      some ({ gh with
                heap := { gh.heap with data := sortData gh.heap.data, hint_idx := 0 } },
            Except.error ())
    | some (Except.ok (d, hint, len, removed)) =>
      match pushGroupCommit gh frame0 rest d hint len with
      | none => none
      | some heap' =>
        some ({ heap := heap', group_seq := u16_wrapping_add gh.group_seq 1 },
              Except.ok removed)

/-! ### Concrete fixtures for the heap claims -/

/-- A frame with the given extended identifier and an empty 8-byte payload. -/
def extFrame (v : Nat) : Frame :=
  { id := FrameId.Extended ⟨v⟩, data := List.replicate 8 0, len := 0 }

/-- A frame with the given standard identifier and an empty 8-byte payload. -/
def stdFrame (v : Nat) : Frame :=
  { id := FrameId.Standard ⟨v⟩, data := List.replicate 8 0, len := 0 }

/-- A full capacity-2 grouping heap whose two occupants share group tag 5. -/
def c1Heap : Heap Unit Nat 2 :=
  { data := [HeapElement.Filled (extFrame 0x123) 0 () 5,
             HeapElement.Filled (extFrame 0x124) 1 () 5],
    len := 2, hint_idx := 0, sort_on := SortOn.Push, seq := 2 }

/-- Claim C1 (code bug): pushing a strictly higher-priority frame into the full
`c1Heap` overwrites the tail occupant and cascade-clears the other slot of
group 5, returning `Ok 2` — but `Heap::push` never decrements `len` on this
path, so afterwards `len = 2` while only one slot is `Filled`, violating the
claimed `count == number of Filled slots` invariant (the claim expects
`len = 1`). -/
theorem heap_push_cascade_len_bug :
    (Heap.push c1Heap (stdFrame 1) () 7).map
        (fun p => (p.2.toOption, p.1.len, countFilled p.1.data))
      = some (some 2, 2, 1) := by decide

/-- An unsorted full capacity-2 grouping heap in sort-on-pop mode. -/
def c2Heap : GroupingHeap Unit 2 :=
  { heap := { data := [HeapElement.Filled (extFrame 0x123) 1 () 5,
                       HeapElement.Filled (extFrame 0x123) 0 () 5],
              len := 2, hint_idx := 0, sort_on := SortOn.Pop, seq := 2 },
    group_seq := 5 }

/-- A two-entry group whose head does not outrank the tail-region occupant. -/
def c2Frames : List (Frame × Unit) := [(extFrame 0x123, ()), (extFrame 0x200, ())]

/-- The state left behind by the rejected `push_group` on `c2Heap`: the same
entries, but sorted (the two slots swapped). -/
def c2After : GroupingHeap Unit 2 :=
  { heap := { data := [HeapElement.Filled (extFrame 0x123) 0 () 5,
                       HeapElement.Filled (extFrame 0x123) 1 () 5],
              len := 2, hint_idx := 0, sort_on := SortOn.Pop, seq := 2 },
    group_seq := 5 }

/-- Claim C2 counterexample: `push_group` fails on `c2Heap` with `c2Frames`,
yet the post-state is not identical to the pre-state — the failure path has
sorted the array (and in general also resets the scan cursor) before
returning the error. -/
theorem push_group_reject_mutates_state :
    GroupingHeap.push_group c2Heap c2Frames = some (c2After, Except.error ()) ∧
    c2After ≠ c2Heap := by
  exact ⟨by rfl, by decide⟩

/-- Claim C2 (amended): when `push_group` fails, no slot has been evicted and
no entry inserted — the stored entries are a permutation of the previous ones
(the array may have been sorted and the cursor reset) — and `len`, the `seq`
counter, the `group_seq` counter and the mode are unchanged. -/
theorem push_group_reject_atomic {M : Type} {N : Nat}
    (gh gh' : GroupingHeap M N) (frames : List (Frame × M))
    (h : GroupingHeap.push_group gh frames = some (gh', Except.error ())) :
    List.Perm gh'.heap.data gh.heap.data ∧ gh'.heap.len = gh.heap.len ∧
    gh'.heap.seq = gh.heap.seq ∧ gh'.heap.sort_on = gh.heap.sort_on ∧
    gh'.group_seq = gh.group_seq := by
  match frames with
  | [] =>
    rw [GroupingHeap.push_group] at h
    simp at h
  | frame0 :: rest =>
    rw [GroupingHeap.push_group] at h
    cases hplan : pushGroupPlan gh frame0 rest with
    | none => rw [hplan] at h; exact Option.noConfusion h
    | some res =>
      cases res with
      | error u =>
        rw [hplan] at h
        simp only [Option.some.injEq, Prod.mk.injEq] at h
        obtain ⟨h1, -⟩ := h
        subst h1
        exact ⟨List.perm_insertionSort _ _, rfl, rfl, rfl, rfl⟩
      | ok tup =>
        obtain ⟨d, hint, len, removed⟩ := tup
        rw [hplan] at h
        dsimp only at h
        cases hcommit : pushGroupCommit gh frame0 rest d hint len with
        | none => rw [hcommit] at h; exact Option.noConfusion h
        | some heap2 =>
          rw [hcommit] at h
          simp at h

/-- Witness for the amended C2 at the concrete rejected group insert on
`c2Heap`. -/
theorem push_group_reject_atomic_witness :
    List.Perm c2After.heap.data c2Heap.heap.data ∧
    c2After.heap.len = c2Heap.heap.len ∧ c2After.heap.seq = c2Heap.heap.seq ∧
    c2After.heap.sort_on = c2Heap.heap.sort_on ∧
    c2After.group_seq = c2Heap.group_seq :=
  push_group_reject_atomic c2Heap c2After c2Frames (by rfl)

/-- Claim C3 (code bug): `push_group` of two frames into a fresh capacity-4
grouping heap returns `Ok 0`, but the first entry is overwritten by the second
(both were written at slot `N - 1` because the index is decremented only after
each write), and `len` is incremented once per input entry anyway: afterwards
`len = 2` while only one slot is `Filled`, holding only the second frame. -/
theorem push_group_drops_first_entry :
    (GroupingHeap.push_group (GroupingHeap.new Unit 4 SortOn.Push)
        [(stdFrame 1, ()), (stdFrame 2, ())]).map
        (fun p => (p.2.toOption, p.1.heap.len, countFilled p.1.heap.data,
                   framesOf p.1.heap.data))
      = some (some 0, 2, 1, [stdFrame 2]) := by decide

/-- A non-empty sort-on-push heap whose cursor has run past the end. -/
def c4Heap : Heap Unit Nat 1 :=
  { data := [HeapElement.Filled (stdFrame 3) 0 () 1], len := 1, hint_idx := 1,
    sort_on := SortOn.Push, seq := 1 }

/-- Claim C4 counterexample: on `c4Heap` — non-empty, sort-on-push, cursor
`hint_idx = 1` past the end of the capacity-1 array, no sort pending — `pop`
does not fail closed with `none`: it wraps the cursor back to 0 and returns
the element stored there. -/
theorem pop_past_end_counterexample :
    (Heap.pop c4Heap).map (fun p => p.2) = some (some (stdFrame 3, ())) ∧
    (Heap.pop c4Heap).map (fun p => p.2) ≠ some none := by
  exact ⟨by decide, by decide⟩

/-- Claim C4 (amended): when the cursor has run past the end of the array in
sort-on-push mode with the container non-empty, `pop` silently wraps the
cursor back to 0 and behaves exactly as if the cursor were 0 — it may return
an element rather than returning `none`. -/
theorem pop_past_end_wraps {M G : Type} {N : Nat} (h : Heap M G N)
    (hlen : h.len ≠ 0) (hso : h.sort_on = SortOn.Push) (hhint : N ≤ h.hint_idx) :
    Heap.pop h = Heap.pop { h with hint_idx := 0 } := by
  rw [Heap.pop, Heap.pop]
  simp only [hso, if_neg hlen]
  have hpop : (SortOn.Push = SortOn.Pop) = False := by simp
  simp only [hpop, if_false, if_pos hhint]
  by_cases h0 : N ≤ 0
  · simp only [if_pos h0]
  · simp only [if_neg h0]

/-- Witness for the amended C4 at the concrete state `c4Heap`. -/
theorem pop_past_end_wraps_witness :
    Heap.pop c4Heap = Heap.pop { c4Heap with hint_idx := 0 } :=
  pop_past_end_wraps c4Heap (by decide) (by decide) (by decide)

/-- A full capacity-1 heap with a nonzero cursor. -/
def c5Heap : Heap Unit Nat 1 :=
  { data := [HeapElement.Filled (stdFrame 3) 0 () 1], len := 1, hint_idx := 1,
    sort_on := SortOn.Push, seq := 7 }

/-- The state left behind by the rejected push on `c5Heap`: identical except
that the cursor has been reset to 0 by the full-branch sort. -/
def c5After : Heap Unit Nat 1 :=
  { data := [HeapElement.Filled (stdFrame 3) 0 () 1], len := 1, hint_idx := 0,
    sort_on := SortOn.Push, seq := 7 }

/-- Claim C5 counterexample: pushing a frame that does not outrank the tail
occupant of the full `c5Heap` returns the original frame as the error value,
but the container state is not identical to before the call: the cursor has
been reset from 1 to 0 (the rejection path sorts and resets before bailing
out). -/
theorem push_reject_resets_cursor :
    Heap.push c5Heap (stdFrame 3) () 9 = some (c5After, Except.error (stdFrame 3)) ∧
    c5After.hint_idx ≠ c5Heap.hint_idx := by
  exact ⟨by rfl, by decide⟩

/-- Claim C5 (amended): a rejected push returns the original message unchanged
as the error value and evicts or inserts nothing — the stored entries are a
permutation of the previous ones and `len`, the `seq` counter and the mode are
unchanged — but the array may have been sorted and the cursor is reset to 0. -/
theorem push_reject_atomic {M G : Type} [BEq G] {N : Nat} (h h' : Heap M G N)
    (frame f' : Frame) (m : M) (g : G)
    (hp : Heap.push h frame m g = some (h', Except.error f')) :
    f' = frame ∧ h'.len = h.len ∧ List.Perm h'.data h.data ∧ h'.seq = h.seq ∧
    h'.sort_on = h.sort_on ∧ h'.hint_idx = 0 := by
  obtain _ | n := N
  · rw [Heap.push.eq_def] at hp
    split at hp
    · exact Option.noConfusion hp
    · simp at hp
  · rw [Heap.push.eq_def] at hp
    split at hp
    · dsimp only at hp
      cases hde : (sortData h.data)[n]? with
      | none => rw [hde] at hp; exact Option.noConfusion hp
      | some e =>
        cases e with
        | Hole => rw [hde] at hp; exact Option.noConfusion hp
        | Filled stored sseq smark sgroup =>
          rw [hde] at hp
          dsimp only at hp
          split at hp
          · simp at hp
          · simp only [Option.some.injEq, Prod.mk.injEq, Except.error.injEq] at hp
            obtain ⟨h1, h2⟩ := hp
            subst h1
            exact ⟨h2.symm, rfl, List.perm_insertionSort _ _, rfl, rfl, rfl⟩
    · simp at hp

/-- Witness for the amended C5 at the concrete rejected push on `c5Heap`. -/
theorem push_reject_atomic_witness :
    stdFrame 3 = stdFrame 3 ∧ c5After.len = c5Heap.len ∧
    List.Perm c5After.data c5Heap.data ∧ c5After.seq = c5Heap.seq ∧
    c5After.sort_on = c5Heap.sort_on ∧ c5After.hint_idx = 0 :=
  push_reject_atomic c5Heap c5After (stdFrame 3) (stdFrame 3) () 9 (by rfl)

/-! ### Order and sorting lemmas for the FIFO-under-tie claim -/

theorem FrameId.cmp_self (x : FrameId) : FrameId.cmp x x = Ordering.eq := by
  cases x <;> simp [FrameId.cmp, Nat.compare_eq_eq]

theorem cmp_filled_of_id_eq {M G : Type} {A B : Frame} (h : A.id = B.id)
    (a b : Int) (mA mB : M) (gA gB : G) :
    HeapElement.cmp (HeapElement.Filled A a mA gA) (HeapElement.Filled B b mB gB)
      = compare (i16_wrapping_sub a b) 0 := by
  simp only [HeapElement.cmp, Frame.cmp, h, FrameId.cmp_self]

theorem leP_filled_of_id_eq {M G : Type} {A B : Frame} (h : A.id = B.id)
    {a b : Int} (hab : compare (i16_wrapping_sub a b) 0 ≠ Ordering.gt)
    (mA mB : M) (gA gB : G) :
    HeapElement.leP (HeapElement.Filled A a mA gA) (HeapElement.Filled B b mB gB) := by
  rw [HeapElement.leP, cmp_filled_of_id_eq h]
  exact hab

theorem leP_to_hole {M G : Type} (e : HeapElement M G) :
    HeapElement.leP e HeapElement.Hole := by
  cases e <;> simp [HeapElement.leP, HeapElement.cmp]

theorem not_leP_hole_filled {M G : Type} (f : Frame) (s : Int) (m : M) (g : G) :
    ¬ HeapElement.leP HeapElement.Hole (HeapElement.Filled f s m g) := by
  simp [HeapElement.leP, HeapElement.cmp]

theorem leP_hole_hole {M G : Type} :
    HeapElement.leP (M := M) (G := G) HeapElement.Hole HeapElement.Hole := by
  simp [HeapElement.leP, HeapElement.cmp]

theorem sorted_append_holes {M G : Type} (l : List (HeapElement M G)) (k : Nat)
    (hl : List.Pairwise HeapElement.leP l) :
    List.Pairwise HeapElement.leP (l ++ List.replicate k HeapElement.Hole) := by
  rw [List.pairwise_append]
  refine ⟨hl, ?_, ?_⟩
  · rw [List.pairwise_replicate]
    exact Or.inr leP_hole_hole
  · intro a _ b hb
    rw [List.eq_of_mem_replicate hb]
    exact leP_to_hole a

theorem sortData_of_sorted {M G : Type} {l : List (HeapElement M G)}
    (h : List.Pairwise HeapElement.leP l) : sortData l = l :=
  List.Sorted.insertionSort_eq h

theorem orderedInsert_hole_replicate {M G : Type} (k : Nat) :
    List.orderedInsert HeapElement.leP HeapElement.Hole
        (List.replicate k (HeapElement.Hole (M := M) (G := G)))
      = List.replicate (k + 1) HeapElement.Hole := by
  cases k with
  | zero => rfl
  | succ k =>
    rw [List.replicate_succ, List.orderedInsert, if_pos leP_hole_hole,
      ← List.replicate_succ, ← List.replicate_succ]

theorem fillFirstHole_replicate_succ {M G : Type} (k : Nat) (x : HeapElement M G) :
    fillFirstHole (List.replicate (k + 1) HeapElement.Hole) x
      = x :: List.replicate k HeapElement.Hole := by
  rw [List.replicate_succ]
  simp [fillFirstHole, HeapElement.isHole]

theorem fillFirstHole_cons_filled {M G : Type} (f : Frame) (s : Int) (m : M) (g : G)
    (rest : List (HeapElement M G)) (x : HeapElement M G) :
    fillFirstHole (HeapElement.Filled f s m g :: rest) x
      = HeapElement.Filled f s m g :: fillFirstHole rest x := by
  simp [fillFirstHole, HeapElement.isHole]

/-- Computation rule for `Heap.push` on a non-full container. -/
theorem Heap.push_not_full {M G : Type} [BEq G] {N : Nat} (h : Heap M G N)
    (frame : Frame) (marker : M) (group : G) (hlen : h.len ≠ N) :
    Heap.push h frame marker group =
      some ({ data := if h.sort_on = SortOn.Push
                then sortData (fillFirstHole h.data (HeapElement.Filled frame h.seq marker group))
                else fillFirstHole h.data (HeapElement.Filled frame h.seq marker group),
              len := h.len + 1,
              hint_idx := if h.sort_on = SortOn.Push then 0 else h.hint_idx,
              sort_on := h.sort_on, seq := i16_wrapping_add h.seq 1 },
            Except.ok 0) := by
  rw [Heap.push.eq_def, if_neg hlen]

/-- Computation rule for `Heap.pop` when no sort runs and the cursor points at
a `Filled` slot. -/
theorem Heap.pop_at_hint {M G : Type} {N : Nat} (h : Heap M G N) (frame : Frame)
    (sseq : Int) (marker : M) (grp : G) (hlen : h.len ≠ 0)
    (hso : h.sort_on ≠ SortOn.Pop) (hhint : ¬ N ≤ h.hint_idx)
    (hget : h.data[h.hint_idx]? = some (HeapElement.Filled frame sseq marker grp)) :
    Heap.pop h = some ({ data := h.data.set h.hint_idx HeapElement.Hole,
                         len := h.len - 1, hint_idx := h.hint_idx + 1,
                         sort_on := h.sort_on, seq := h.seq },
                       some (frame, marker)) := by
  rw [Heap.pop, if_neg hlen]
  simp only [if_neg hso, if_neg hhint, hget]

/-- Computation rule for `Heap.pop` in sort-on-pop mode when the sorted array
starts with a `Filled` slot. -/
theorem Heap.pop_sorting {M G : Type} {N : Nat} (h : Heap M G N) (frame : Frame)
    (sseq : Int) (marker : M) (grp : G) (rest : List (HeapElement M G))
    (hlen : h.len ≠ 0) (hso : h.sort_on = SortOn.Pop) (hN : ¬ N ≤ 0)
    (hsorted : sortData h.data = HeapElement.Filled frame sseq marker grp :: rest) :
    Heap.pop h = some ({ data := HeapElement.Hole :: rest,
                         len := h.len - 1, hint_idx := 1,
                         sort_on := h.sort_on, seq := h.seq },
                       some (frame, marker)) := by
  rw [Heap.pop, if_neg hlen]
  simp only [hso, eq_self_iff_true, ite_true, if_neg hN, hsorted,
    List.getElem?_cons_zero, List.set_cons_zero]

theorem fillFirstHole_no_hole_prefix {M G : Type} (l : List (HeapElement M G))
    (hl : ∀ e ∈ l, HeapElement.isHole e = false)
    (tail : List (HeapElement M G)) (x : HeapElement M G) :
    fillFirstHole (l ++ tail) x = l ++ fillFirstHole tail x := by
  induction l with
  | nil => rfl
  | cons e rest ih =>
    have he := hl e (List.mem_cons_self _ _)
    rw [List.cons_append, fillFirstHole, if_neg (by rw [he]; exact Bool.false_ne_true),
      ih (fun e' he' => hl e' (List.mem_cons_of_mem _ he')), List.cons_append]

/-- Computation rule for `Heap.push` into a container whose array is a
hole-free prefix followed by at least one `Hole`: the new entry lands right
after the prefix, and when the entry sorts at that position the optional
sort-on-push pass leaves the array unchanged. -/
theorem Heap.push_prefix {M G : Type} [BEq G] {N : Nat} (h : Heap M G N)
    (l : List (HeapElement M G)) (k : Nat) (frame : Frame) (marker : M) (group : G)
    (hdata : h.data = l ++ List.replicate (k + 1) HeapElement.Hole)
    (hlen : h.len ≠ N)
    (hl : ∀ e ∈ l, HeapElement.isHole e = false)
    (hsorted : List.Pairwise HeapElement.leP
        (l ++ [HeapElement.Filled frame h.seq marker group])) :
    Heap.push h frame marker group =
      some ({ data := l ++ HeapElement.Filled frame h.seq marker group
                        :: List.replicate k HeapElement.Hole,
              len := h.len + 1,
              hint_idx := if h.sort_on = SortOn.Push then 0 else h.hint_idx,
              sort_on := h.sort_on, seq := i16_wrapping_add h.seq 1 },
            Except.ok 0) := by
  rw [Heap.push_not_full h frame marker group hlen, hdata,
    fillFirstHole_no_hole_prefix l hl, fillFirstHole_replicate_succ]
  have hs : sortData (l ++ HeapElement.Filled frame h.seq marker group
      :: List.replicate k HeapElement.Hole)
      = l ++ HeapElement.Filled frame h.seq marker group
          :: List.replicate k HeapElement.Hole := by
    apply sortData_of_sorted
    have := sorted_append_holes (l ++ [HeapElement.Filled frame h.seq marker group])
      k hsorted
    rwa [List.append_assoc, List.singleton_append] at this
  rw [hs, ite_self]

theorem orderedInsert_hole_prefix {M G : Type} (l : List (HeapElement M G)) (k : Nat)
    (hl : ∀ e ∈ l, HeapElement.isHole e = false) :
    List.orderedInsert HeapElement.leP HeapElement.Hole
        (l ++ List.replicate k HeapElement.Hole)
      = l ++ List.replicate (k + 1) HeapElement.Hole := by
  induction l with
  | nil =>
    rw [List.nil_append, List.nil_append]
    exact orderedInsert_hole_replicate k
  | cons e rest ih =>
    cases e with
    | Hole => exact absurd (hl HeapElement.Hole (List.mem_cons_self _ _)) (by simp [HeapElement.isHole])
    | Filled f s m g =>
      rw [List.cons_append, List.orderedInsert, if_neg (not_leP_hole_filled f s m g),
        ih (fun e' he' => hl e' (List.mem_cons_of_mem _ he')), List.cons_append]

/-- Sorting an array that is a `Hole` followed by a sorted hole-free prefix and
a run of holes moves the leading `Hole` to the back. -/
theorem sortData_hole_cons {M G : Type} (l : List (HeapElement M G)) (k : Nat)
    (hsorted : List.Pairwise HeapElement.leP (l ++ List.replicate k HeapElement.Hole))
    (hl : ∀ e ∈ l, HeapElement.isHole e = false) :
    sortData (HeapElement.Hole :: (l ++ List.replicate k HeapElement.Hole))
      = l ++ List.replicate (k + 1) HeapElement.Hole := by
  rw [sortData, List.insertionSort]
  rw [show List.insertionSort HeapElement.leP (l ++ List.replicate k HeapElement.Hole)
      = l ++ List.replicate k HeapElement.Hole from sortData_of_sorted hsorted]
  exact orderedInsert_hole_prefix l k hl

/-- Three same-identifier pushes followed by three pops on a fresh `PlainHeap`,
returning the three pop results (`none` on any modelled panic). -/
def fifoScenario (M : Type) (N : Nat) (so : SortOn) (A B C : Frame)
    (mA mB mC : M) :
    Option (Option (Frame × M) × Option (Frame × M) × Option (Frame × M)) :=
  match PlainHeap.push (PlainHeap.new M N so) A mA with
  | none => none
  | some (h1, _) =>
    match PlainHeap.push h1 B mB with
    | none => none
    | some (h2, _) =>
      match PlainHeap.push h2 C mC with
      | none => none
      | some (h3, _) =>
        match PlainHeap.pop h3 with
        | none => none
        | some (h4, r1) =>
          match PlainHeap.pop h4 with
          | none => none
          | some (h5, r2) =>
            match PlainHeap.pop h5 with
            | none => none
            | some (_, r3) => some (r1, r2, r3)

/-- Claim C7: in both sort-on-push and sort-on-pop modes, with any capacity at
least 3, pushing three messages `A`, `B`, `C` that carry the same identifier
into a fresh container and then popping three times yields `A`, `B`, `C` —
ties in the identifier are broken by the insertion sequence numbers via
wraparound-tolerant `i16` subtraction. -/
theorem fifo_under_tie (M : Type) (N : Nat) (so : SortOn) (A B C : Frame)
    (mA mB mC : M) (hN : 3 ≤ N) (hAB : A.id = B.id) (hBC : B.id = C.id) :
    fifoScenario M N so A B C mA mB mC
      = some (some (A, mA), some (B, mB), some (C, mC)) := by
  obtain ⟨k, rfl⟩ : ∃ k, N = k + 3 := ⟨N - 3, by omega⟩
  have hAC : A.id = C.id := hAB.trans hBC
  have le12 : HeapElement.leP (HeapElement.Filled A 0 mA NoGrouping.mk)
      (HeapElement.Filled B 1 mB NoGrouping.mk) :=
    leP_filled_of_id_eq (G := NoGrouping) hAB (by decide) mA mB NoGrouping.mk NoGrouping.mk
  have le13 : HeapElement.leP (HeapElement.Filled A 0 mA NoGrouping.mk)
      (HeapElement.Filled C 2 mC NoGrouping.mk) :=
    leP_filled_of_id_eq (G := NoGrouping) hAC (by decide) mA mC NoGrouping.mk NoGrouping.mk
  have le23 : HeapElement.leP (HeapElement.Filled B 1 mB NoGrouping.mk)
      (HeapElement.Filled C 2 mC NoGrouping.mk) :=
    leP_filled_of_id_eq (G := NoGrouping) hBC (by decide) mB mC NoGrouping.mk NoGrouping.mk
  have hp12 : List.Pairwise HeapElement.leP
      [HeapElement.Filled A 0 mA NoGrouping.mk, HeapElement.Filled B 1 mB NoGrouping.mk] := by
    rw [List.pairwise_cons]
    exact ⟨fun b hb => by rw [List.mem_singleton] at hb; subst hb; exact le12,
           List.pairwise_singleton _ _⟩
  have hp23 : List.Pairwise HeapElement.leP
      [HeapElement.Filled B 1 mB NoGrouping.mk, HeapElement.Filled C 2 mC NoGrouping.mk] := by
    rw [List.pairwise_cons]
    exact ⟨fun b hb => by rw [List.mem_singleton] at hb; subst hb; exact le23,
           List.pairwise_singleton _ _⟩
  have hp123 : List.Pairwise HeapElement.leP
      [HeapElement.Filled A 0 mA NoGrouping.mk, HeapElement.Filled B 1 mB NoGrouping.mk,
       HeapElement.Filled C 2 mC NoGrouping.mk] := by
    rw [List.pairwise_cons]
    refine ⟨fun b hb => ?_, hp23⟩
    rcases List.mem_cons.mp hb with rfl | hb2
    · exact le12
    · rw [List.mem_singleton] at hb2; subst hb2; exact le13
  have hpush1 :
      PlainHeap.push (PlainHeap.new M (k + 3) so) A mA
        = some (PlainHeap.mk
              { data := HeapElement.Filled A 0 mA NoGrouping.mk
                  :: List.replicate (k + 2) HeapElement.Hole,
                len := 1, hint_idx := 0, sort_on := so, seq := 1 },
            Except.ok 0) := by
    dsimp only [PlainHeap.push, PlainHeap.new]
    rw [Heap.push_prefix (Heap.new M NoGrouping (k + 3) so) [] (k + 2) A mA NoGrouping.mk
      rfl (show (0 : Nat) ≠ k + 3 by omega)
      (fun e he => absurd he (List.not_mem_nil e))
      (List.pairwise_singleton _ _)]
    dsimp only [Heap.new]
    simp only [ite_self, List.nil_append, Nat.zero_add]
    rw [show i16_wrapping_add 0 1 = (1 : Int) from by decide]
  have hpush2 :
      PlainHeap.push (PlainHeap.mk
              { data := HeapElement.Filled A 0 mA NoGrouping.mk
                  :: List.replicate (k + 2) HeapElement.Hole,
                len := 1, hint_idx := 0, sort_on := so, seq := 1 } : PlainHeap M (k + 3)) B mB
        = some (PlainHeap.mk
              { data := HeapElement.Filled A 0 mA NoGrouping.mk :: HeapElement.Filled B 1 mB NoGrouping.mk
                  :: List.replicate (k + 1) HeapElement.Hole,
                len := 2, hint_idx := 0, sort_on := so, seq := 2 },
            Except.ok 0) := by
    dsimp only [PlainHeap.push]
    rw [Heap.push_prefix
      ({ data := HeapElement.Filled A 0 mA NoGrouping.mk
                  :: List.replicate (k + 2) HeapElement.Hole,
                len := 1, hint_idx := 0, sort_on := so, seq := 1 })
      [HeapElement.Filled A 0 mA NoGrouping.mk] (k + 1) B mB NoGrouping.mk
      rfl (show (1 : Nat) ≠ k + 3 by omega)
      (fun e he => by rw [List.mem_singleton] at he; subst he; rfl)
      hp12]
    dsimp only
    simp only [ite_self, List.singleton_append]
    rw [show i16_wrapping_add 1 1 = (2 : Int) from by decide]
  have hpush3 :
      PlainHeap.push (PlainHeap.mk
              { data := HeapElement.Filled A 0 mA NoGrouping.mk :: HeapElement.Filled B 1 mB NoGrouping.mk
                  :: List.replicate (k + 1) HeapElement.Hole,
                len := 2, hint_idx := 0, sort_on := so, seq := 2 } : PlainHeap M (k + 3)) C mC
        = some (PlainHeap.mk
              { data := HeapElement.Filled A 0 mA NoGrouping.mk :: HeapElement.Filled B 1 mB NoGrouping.mk :: HeapElement.Filled C 2 mC NoGrouping.mk
                  :: List.replicate k HeapElement.Hole,
                len := 3, hint_idx := 0, sort_on := so, seq := 3 },
            Except.ok 0) := by
    dsimp only [PlainHeap.push]
    rw [Heap.push_prefix
      ({ data := HeapElement.Filled A 0 mA NoGrouping.mk :: HeapElement.Filled B 1 mB NoGrouping.mk
                  :: List.replicate (k + 1) HeapElement.Hole,
                len := 2, hint_idx := 0, sort_on := so, seq := 2 })
      [HeapElement.Filled A 0 mA NoGrouping.mk, HeapElement.Filled B 1 mB NoGrouping.mk] k C mC NoGrouping.mk
      rfl (show (2 : Nat) ≠ k + 3 by omega)
      (fun e he => by
        rcases List.mem_cons.mp he with rfl | he2
        · rfl
        · rw [List.mem_singleton] at he2; subst he2; rfl)
      hp123]
    dsimp only
    simp only [ite_self]
    rw [show i16_wrapping_add 2 1 = (3 : Int) from by decide]
    rfl
  rw [fifoScenario, hpush1]
  dsimp only
  rw [hpush2]
  dsimp only
  rw [hpush3]
  dsimp only
  cases so with
  | Push =>
    have hpop1 :
        PlainHeap.pop (PlainHeap.mk
              { data := HeapElement.Filled A 0 mA NoGrouping.mk :: HeapElement.Filled B 1 mB NoGrouping.mk :: HeapElement.Filled C 2 mC NoGrouping.mk
                  :: List.replicate k HeapElement.Hole,
                len := 3, hint_idx := 0, sort_on := SortOn.Push, seq := 3 } : PlainHeap M (k + 3))
          = some (PlainHeap.mk
              { data := HeapElement.Hole :: HeapElement.Filled B 1 mB NoGrouping.mk :: HeapElement.Filled C 2 mC NoGrouping.mk
                  :: List.replicate k HeapElement.Hole,
                len := 2, hint_idx := 1, sort_on := SortOn.Push, seq := 3 },
            some (A, mA)) := by
      dsimp only [PlainHeap.pop]
      rw [Heap.pop_at_hint
        ({ data := HeapElement.Filled A 0 mA NoGrouping.mk :: HeapElement.Filled B 1 mB NoGrouping.mk :: HeapElement.Filled C 2 mC NoGrouping.mk
                  :: List.replicate k HeapElement.Hole,
                len := 3, hint_idx := 0, sort_on := SortOn.Push, seq := 3 })
        A 0 mA NoGrouping.mk
        (show (3 : Nat) ≠ 0 by omega)
        (show SortOn.Push ≠ SortOn.Pop by decide)
        (show ¬ k + 3 ≤ 0 by omega) (by simp)]
      rfl
    have hpop2 :
        PlainHeap.pop (PlainHeap.mk
              { data := HeapElement.Hole :: HeapElement.Filled B 1 mB NoGrouping.mk :: HeapElement.Filled C 2 mC NoGrouping.mk
                  :: List.replicate k HeapElement.Hole,
                len := 2, hint_idx := 1, sort_on := SortOn.Push, seq := 3 } : PlainHeap M (k + 3))
          = some (PlainHeap.mk
              { data := HeapElement.Hole :: HeapElement.Hole :: HeapElement.Filled C 2 mC NoGrouping.mk
                  :: List.replicate k HeapElement.Hole,
                len := 1, hint_idx := 2, sort_on := SortOn.Push, seq := 3 },
            some (B, mB)) := by
      dsimp only [PlainHeap.pop]
      rw [Heap.pop_at_hint
        ({ data := HeapElement.Hole :: HeapElement.Filled B 1 mB NoGrouping.mk :: HeapElement.Filled C 2 mC NoGrouping.mk
                  :: List.replicate k HeapElement.Hole,
                len := 2, hint_idx := 1, sort_on := SortOn.Push, seq := 3 })
        B 1 mB NoGrouping.mk
        (show (2 : Nat) ≠ 0 by omega)
        (show SortOn.Push ≠ SortOn.Pop by decide)
        (show ¬ k + 3 ≤ 1 by omega) (by simp)]
      rfl
    have hpop3 :
        PlainHeap.pop (PlainHeap.mk
              { data := HeapElement.Hole :: HeapElement.Hole :: HeapElement.Filled C 2 mC NoGrouping.mk
                  :: List.replicate k HeapElement.Hole,
                len := 1, hint_idx := 2, sort_on := SortOn.Push, seq := 3 } : PlainHeap M (k + 3))
          = some (PlainHeap.mk
              { data := HeapElement.Hole :: HeapElement.Hole :: HeapElement.Hole
                  :: List.replicate k HeapElement.Hole,
                len := 0, hint_idx := 3, sort_on := SortOn.Push, seq := 3 },
            some (C, mC)) := by
      dsimp only [PlainHeap.pop]
      rw [Heap.pop_at_hint
        ({ data := HeapElement.Hole :: HeapElement.Hole :: HeapElement.Filled C 2 mC NoGrouping.mk
                  :: List.replicate k HeapElement.Hole,
                len := 1, hint_idx := 2, sort_on := SortOn.Push, seq := 3 })
        C 2 mC NoGrouping.mk
        (show (1 : Nat) ≠ 0 by omega)
        (show SortOn.Push ≠ SortOn.Pop by decide)
        (show ¬ k + 3 ≤ 2 by omega) (by simp)]
      rfl
    rw [hpop1]
    dsimp only
    rw [hpop2]
    dsimp only
    rw [hpop3]
  | Pop =>
    have hs3 : List.Pairwise HeapElement.leP
        ([HeapElement.Filled A 0 mA NoGrouping.mk, HeapElement.Filled B 1 mB NoGrouping.mk,
          HeapElement.Filled C 2 mC NoGrouping.mk] ++ List.replicate k HeapElement.Hole) :=
      sorted_append_holes _ k hp123
    have hs23 : List.Pairwise HeapElement.leP
        ([HeapElement.Filled B 1 mB NoGrouping.mk, HeapElement.Filled C 2 mC NoGrouping.mk]
          ++ List.replicate k HeapElement.Hole) :=
      sorted_append_holes _ k hp23
    have hs33 : List.Pairwise HeapElement.leP
        ([HeapElement.Filled C 2 mC NoGrouping.mk]
          ++ List.replicate (k + 1) HeapElement.Hole) :=
      sorted_append_holes _ (k + 1) (List.pairwise_singleton _ _)
    have hpop1 :
        PlainHeap.pop (PlainHeap.mk
              { data := HeapElement.Filled A 0 mA NoGrouping.mk :: HeapElement.Filled B 1 mB NoGrouping.mk :: HeapElement.Filled C 2 mC NoGrouping.mk
                  :: List.replicate k HeapElement.Hole,
                len := 3, hint_idx := 0, sort_on := SortOn.Pop, seq := 3 } : PlainHeap M (k + 3))
          = some (PlainHeap.mk
              { data := HeapElement.Hole :: HeapElement.Filled B 1 mB NoGrouping.mk :: HeapElement.Filled C 2 mC NoGrouping.mk
                  :: List.replicate k HeapElement.Hole,
                len := 2, hint_idx := 1, sort_on := SortOn.Pop, seq := 3 },
            some (A, mA)) := by
      dsimp only [PlainHeap.pop]
      rw [Heap.pop_sorting
        ({ data := HeapElement.Filled A 0 mA NoGrouping.mk :: HeapElement.Filled B 1 mB NoGrouping.mk :: HeapElement.Filled C 2 mC NoGrouping.mk
                  :: List.replicate k HeapElement.Hole,
                len := 3, hint_idx := 0, sort_on := SortOn.Pop, seq := 3 })
        A 0 mA NoGrouping.mk
        (HeapElement.Filled B 1 mB NoGrouping.mk :: HeapElement.Filled C 2 mC NoGrouping.mk
          :: List.replicate k HeapElement.Hole)
        (show (3 : Nat) ≠ 0 by omega)
        rfl
        (show ¬ k + 3 ≤ 0 by omega)
        (sortData_of_sorted hs3)]
      rfl
    have hpop2 :
        PlainHeap.pop (PlainHeap.mk
              { data := HeapElement.Hole :: HeapElement.Filled B 1 mB NoGrouping.mk :: HeapElement.Filled C 2 mC NoGrouping.mk
                  :: List.replicate k HeapElement.Hole,
                len := 2, hint_idx := 1, sort_on := SortOn.Pop, seq := 3 } : PlainHeap M (k + 3))
          = some (PlainHeap.mk
              { data := HeapElement.Hole :: HeapElement.Filled C 2 mC NoGrouping.mk
                  :: List.replicate (k + 1) HeapElement.Hole,
                len := 1, hint_idx := 1, sort_on := SortOn.Pop, seq := 3 },
            some (B, mB)) := by
      dsimp only [PlainHeap.pop]
      rw [Heap.pop_sorting
        ({ data := HeapElement.Hole :: HeapElement.Filled B 1 mB NoGrouping.mk :: HeapElement.Filled C 2 mC NoGrouping.mk
                  :: List.replicate k HeapElement.Hole,
                len := 2, hint_idx := 1, sort_on := SortOn.Pop, seq := 3 })
        B 1 mB NoGrouping.mk
        (HeapElement.Filled C 2 mC NoGrouping.mk :: List.replicate (k + 1) HeapElement.Hole)
        (show (2 : Nat) ≠ 0 by omega)
        rfl
        (show ¬ k + 3 ≤ 0 by omega)
        (sortData_hole_cons
          [HeapElement.Filled B 1 mB NoGrouping.mk, HeapElement.Filled C 2 mC NoGrouping.mk]
          k hs23
          (fun e he => by
            rcases List.mem_cons.mp he with rfl | he2
            · rfl
            · rw [List.mem_singleton] at he2; subst he2; rfl))]
      rfl
    have hpop3 :
        PlainHeap.pop (PlainHeap.mk
              { data := HeapElement.Hole :: HeapElement.Filled C 2 mC NoGrouping.mk
                  :: List.replicate (k + 1) HeapElement.Hole,
                len := 1, hint_idx := 1, sort_on := SortOn.Pop, seq := 3 } : PlainHeap M (k + 3))
          = some (PlainHeap.mk
              { data := HeapElement.Hole :: List.replicate (k + 2) HeapElement.Hole,
                len := 0, hint_idx := 1, sort_on := SortOn.Pop, seq := 3 },
            some (C, mC)) := by
      dsimp only [PlainHeap.pop]
      rw [Heap.pop_sorting
        ({ data := HeapElement.Hole :: HeapElement.Filled C 2 mC NoGrouping.mk
                  :: List.replicate (k + 1) HeapElement.Hole,
                len := 1, hint_idx := 1, sort_on := SortOn.Pop, seq := 3 })
        C 2 mC NoGrouping.mk
        (List.replicate (k + 2) HeapElement.Hole)
        (show (1 : Nat) ≠ 0 by omega)
        rfl
        (show ¬ k + 3 ≤ 0 by omega)
        (sortData_hole_cons
          [HeapElement.Filled C 2 mC NoGrouping.mk]
          (k + 1) hs33
          (fun e he => by rw [List.mem_singleton] at he; subst he; rfl))]
      rfl
    rw [hpop1]
    dsimp only
    rw [hpop2]
    dsimp only
    rw [hpop3]

/-- Witness for C7 at capacity 3 in sort-on-push mode with three concrete
frames sharing the standard identifier 5. -/
theorem fifo_under_tie_witness :
    fifoScenario Unit 3 SortOn.Push (stdFrame 5) (stdFrame 5) (stdFrame 5) () () ()
      = some (some (stdFrame 5, ()), some (stdFrame 5, ()), some (stdFrame 5, ())) :=
  fifo_under_tie Unit 3 SortOn.Push (stdFrame 5) (stdFrame 5) (stdFrame 5) () () ()
    (by omega) rfl rfl
